import Mathlib

/-!
Verification of the Forkcast backend core (src/main.py): the error
classifier, the HTML media-URL scanner, the VTT decoder, the video-format
selector, the extraction cascade and the request handler, shallowly
embedded over `List Char` strings.
-/

namespace Forkcast

/-- Strings are modelled as lists of characters. -/
abbrev Str := List Char

/-- Coerce a Lean string literal to the `List Char` representation. -/
def chars (s : String) : Str := s.data

/-- Python `str.lower()` (ASCII case folding suffices for the texts involved). -/
def lowerStr (s : Str) : Str := s.map Char.toLower

/-- Boolean string-prefix test, modelling Python `str.startswith`. -/
def isPrefixOfB : Str → Str → Bool
  | [], _ => true
  | _ :: _, [] => false
  | a :: as, b :: bs => a == b && isPrefixOfB as bs

/-- Boolean substring test, modelling Python `needle in haystack`. -/
def containsSub (needle : Str) : Str → Bool
  | [] => isPrefixOfB needle []
  | c :: rest => isPrefixOfB needle (c :: rest) || containsSub needle rest

/-- Position of the first occurrence of `u` (length of the list if absent). -/
def posOf (u : Str) : List Str → Nat
  | [] => 0
  | v :: vs => if v = u then 0 else posOf u vs + 1

/-- Python `s.split('\n')`: split at every newline, keeping empty pieces. -/
def splitLines : Str → List Str
  | [] => [[]]
  | c :: cs =>
    if c = '\n' then [] :: splitLines cs
    else
      match splitLines cs with
      | [] => [[c]]
      | l :: ls => (c :: l) :: ls

/-- Whitespace characters recognised by Python `str.strip()`. -/
def isPyWS (c : Char) : Bool :=
  c = ' ' || c = '\t' || c = '\r' || c = '\n' || c = Char.ofNat 11 || c = Char.ofNat 12

/-- Python `str.strip()`: drop leading and trailing whitespace. -/
def trimStr (s : Str) : Str :=
  ((s.dropWhile isPyWS).reverse.dropWhile isPyWS).reverse

/-- Python `' '.join(parts)`. -/
def joinSpace : List Str → Str
  | [] => []
  | [x] => x
  | x :: xs => x ++ ' ' :: joinSpace xs

/-- Python `str.isdigit()`: nonempty and all digits. -/
def isDigitsB (s : Str) : Bool :=
  !s.isEmpty && s.all Char.isDigit

/-- `classify_error` (src/main.py:61-96): the ordered, case-insensitive
decision table mapping a failure message to an HTTP status and message. -/
def classify_error (msg : Str) : Nat × Str :=
  if containsSub (chars "403") (lowerStr msg) || containsSub (chars "forbidden") (lowerStr msg) then
    (403, chars "Access denied: The video source is blocking access to this content")
  else if containsSub (chars "404") (lowerStr msg) || containsSub (chars "not found") (lowerStr msg)
      || containsSub (chars "does not exist") (lowerStr msg) then
    (404, chars "Video not found: The requested video could not be found")
  else if containsSub (chars "401") (lowerStr msg) || containsSub (chars "unauthorized") (lowerStr msg) then
    (401, chars "Unauthorized: Authentication required to access this content")
  else if containsSub (chars "timeout") (lowerStr msg) || containsSub (chars "took too long") (lowerStr msg) then
    (408, chars "Request timeout: Page took too long to load")
  else if containsSub (chars "connection") (lowerStr msg) || containsSub (chars "network") (lowerStr msg) then
    (503, chars "Service unavailable: Network error while accessing the video source")
  else if containsSub (chars "unsupported url") (lowerStr msg) || containsSub (chars "no video formats found") (lowerStr msg)
      || containsSub (chars "unable to extract") (lowerStr msg) || containsSub (chars "unable to download") (lowerStr msg) then
    (400, chars "Bad request: Unable to process this video URL")
  else if containsSub (chars "no video url found") (lowerStr msg) || containsSub (chars "no video") (lowerStr msg) then
    (400, chars "No video URL available: Unable to extract video source URL")
  else
    (500, chars "Internal server error: " ++ msg)

example : (classify_error (chars "Connection timed out")).1 = 503 := by decide
example : (classify_error (chars "Connection timeout")).1 = 408 := by decide
example : (classify_error (chars "HTTP 403 Forbidden")).1 = 403 := by decide
example : classify_error (chars "xyz")
    = (500, chars "Internal server error: xyz") := by decide

/-- Case-insensitive prefix test: the pattern (already lower-case) against
the text, modelling a literal matched under `re.IGNORECASE`. -/
def isPrefixOfCI : Str → Str → Bool
  | [], _ => true
  | _ :: _, [] => false
  | a :: as, b :: bs => a == b.toLower && isPrefixOfCI as bs

/-- The quote characters of the regex class matching a double or single quote. -/
def isQuoteC (c : Char) : Bool := c = '"' || c = Char.ofNat 39

/-- Match a quoted value `["']([^"']+)["']` at the start of the input:
returns the capture (original characters) and the remainder after the
closing quote. -/
def matchQuotedVal (cs : Str) : Option (Str × Str) :=
  match cs with
  | q :: rest =>
    if isQuoteC q then
      let cap := rest.takeWhile (fun c => !isQuoteC c)
      match rest.drop cap.length with
      | q2 :: tail => if isQuoteC q2 && !cap.isEmpty then some (cap, tail) else none
      | [] => none
    else none
  | [] => none

/-- Match `src=["']([^"']+)["']` at the start of the input. -/
def matchSrcEq (cs : Str) : Option (Str × Str) :=
  if isPrefixOfCI (chars "src=") cs then matchQuotedVal (cs.drop 4) else none

/-- Greedy backtracking for `[^>]+` before `src=...`: try consuming `t`
characters for `t` from the longest run length down to 1, as the regex
engine does. -/
def greedySrc (body : Str) : Nat → Option (Str × Str)
  | 0 => none
  | t + 1 =>
    match matchSrcEq (body.drop (t + 1)) with
    | some r => some r
    | none => greedySrc body t

/-- `re.findall(r'<TAG[^>]+src=["\x27]([^"\x27]+)["\x27]', html, re.IGNORECASE)`
for a fixed lower-case tag literal (src/main.py:106-113): leftmost,
non-overlapping scan with a greedy `[^>]+`. -/
def scanTagSrc (tag : Str) : Nat → Str → List Str
  | 0, _ => []
  | _, [] => []
  | fuel + 1, c :: rest =>
    if isPrefixOfCI tag (c :: rest) then
      let body := (c :: rest).drop tag.length
      let k := (body.takeWhile (fun x => x ≠ '>')).length
      match greedySrc body k with
      | some (cap, after) => cap :: scanTagSrc tag fuel after
      | none => scanTagSrc tag fuel rest
    else scanTagSrc tag fuel rest

/-- The media file extensions recognised by the scanner (src/main.py:116,121). -/
def mediaExts : List Str :=
  [chars "mp4", chars "webm", chars "ogg", chars "mov", chars "avi", chars "m3u8"]

/-- Does `s` have the form `[^"']+\.(?:mp4|webm|ogg|mov|avi|m3u8)` (case
insensitively): at least one character, then a dot, then a known media
extension ending the string? -/
def hasMediaExtSuffix (s : Str) : Bool :=
  mediaExts.any (fun e =>
    decide (e.length + 1 < s.length) && isPrefixOfB ('.' :: e).reverse (lowerStr s).reverse)

/-- `re.findall(r'data-src=["\x27]([^"\x27]+\.(?:mp4|webm|ogg|mov|avi|m3u8))["\x27]', ...)`
(src/main.py:116-117). -/
def scanDataSrc : Nat → Str → List Str
  | 0, _ => []
  | _, [] => []
  | fuel + 1, c :: rest =>
    if isPrefixOfCI (chars "data-src=") (c :: rest) then
      match matchQuotedVal ((c :: rest).drop 9) with
      | some (cap, after) =>
        if hasMediaExtSuffix cap then cap :: scanDataSrc fuel after
        else scanDataSrc fuel rest
      | none => scanDataSrc fuel rest
    else scanDataSrc fuel rest

/-- Does `cap` have the form `https?://[^"']+\.(?:mp4|...)` (case
insensitively), i.e. an absolute http(s) URL ending in a media extension
with a nonempty middle part? -/
def tier4Shape (cap : Str) : Bool :=
  let n : Option Nat :=
    if isPrefixOfCI (chars "https://") cap then some 8
    else if isPrefixOfCI (chars "http://") cap then some 7
    else none
  match n with
  | some k =>
    mediaExts.any (fun e =>
      decide (k + e.length + 1 < cap.length)
        && isPrefixOfB ('.' :: e).reverse (lowerStr cap).reverse)
  | none => false

/-- `re.findall(r'["\x27](https?://[^"\x27]+\.(?:mp4|webm|ogg|mov|avi|m3u8))["\x27]', ...)`
(src/main.py:121-122). -/
def scanJsonUrl : Nat → Str → List Str
  | 0, _ => []
  | _, [] => []
  | fuel + 1, c :: rest =>
    if isQuoteC c then
      match matchQuotedVal (c :: rest) with
      | some (cap, after) =>
        if tier4Shape cap then cap :: scanJsonUrl fuel after
        else scanJsonUrl fuel rest
      | none => scanJsonUrl fuel rest
    else scanJsonUrl fuel rest

/-- Remove `<[^>]+>` tag runs, modelling `re.sub(r'<[^>]+>', '', line)`
(src/main.py:368), with fuel bounded by the input length. -/
def removeTagsGo : Nat → Str → Str
  | 0, s => s
  | _, [] => []
  | fuel + 1, c :: rest =>
    if c = '<' then
      let run := rest.takeWhile (fun x => x ≠ '>')
      if run.isEmpty then c :: removeTagsGo fuel rest
      else
        match rest.drop run.length with
        | _ :: tail => removeTagsGo fuel tail
        | [] => c :: removeTagsGo fuel rest
    else c :: removeTagsGo fuel rest

/-- `re.sub(r'<[^>]+>', '', s)`. -/
def removeTags (s : Str) : Str := removeTagsGo s.length s

/-- Match `<title[^>]*>([^<]+)</title>` at the start of the input
(src/main.py:285). -/
def matchTitleAt (cs : Str) : Option Str :=
  if isPrefixOfCI (chars "<title") cs then
    let body := cs.drop 6
    let run := body.takeWhile (fun x => x ≠ '>')
    match body.drop run.length with
    | _ :: rest2 =>
      let cap := rest2.takeWhile (fun x => x ≠ '<')
      if cap.isEmpty then none
      else if isPrefixOfCI (chars "</title>") (rest2.drop cap.length) then some cap
      else none
    | [] => none
  else none

/-- `re.search(r'<title[^>]*>([^<]+)</title>', html, re.IGNORECASE)`:
the first match's capture group. -/
def titleSearchGo : Nat → Str → Option Str
  | 0, _ => none
  | _, [] => none
  | fuel + 1, c :: rest =>
    match matchTitleAt (c :: rest) with
    | some cap => some cap
    | none => titleSearchGo fuel rest

/-- The `<title>` text of an HTML document, if any. -/
def titleOf (html : Str) : Option Str := titleSearchGo (html.length + 1) html

/-- Valid URI scheme characters, as `urllib.parse` accepts them. -/
def validSchemeChars (s : Str) : Bool :=
  match s with
  | [] => false
  | c :: cs => c.isAlpha && cs.all (fun x => x.isAlphanum || x = '+' || x = '-' || x = '.')

/-- Models the scheme split of `urllib.parse.urlsplit`: a URL `sch:rest`
with a valid scheme yields the lower-cased scheme and the rest. -/
def parseScheme (u : Str) : Option (Str × Str) :=
  let pre := u.takeWhile (fun c => c ≠ ':')
  if decide (pre.length < u.length) && validSchemeChars pre then
    some (lowerStr pre, u.drop (pre.length + 1))
  else none

/-- Models `urllib.parse.urlparse(b).scheme` for the URLs the source feeds
it (lower-cased text before the first colon). -/
def schemeOf (b : Str) : Str := lowerStr (b.takeWhile (fun c => c ≠ ':'))

/-- Netloc and path of a URL, modelling `urllib.parse.urlparse`: the netloc
is present only after `//` and runs to the next `/`, `?` or `#`. -/
def hostAndPath (b : Str) : Str × Str :=
  let rest :=
    match parseScheme b with
    | some (_, r) => r
    | none => b
  if isPrefixOfB (chars "//") rest then
    let rest2 := rest.drop 2
    let netloc := rest2.takeWhile (fun c => c ≠ '/' && c ≠ '?' && c ≠ '#')
    (netloc, rest2.drop netloc.length)
  else ([], rest)

/-- `urllib.parse.urlparse(b).netloc`. -/
def netlocOf (b : Str) : Str := (hostAndPath b).1

/-- `urllib.parse.urlparse(b).path` (query and fragment not modelled). -/
def pathOf (b : Str) : Str := (hostAndPath b).2

/-- The base path up to and including its last slash (the RFC 3986 merge),
`/` when the base path is empty or slash-free. -/
def dirOfPath (p : Str) : Str :=
  let d := (p.reverse.dropWhile (fun c => c ≠ '/')).reverse
  if d.isEmpty then chars "/" else d

/-- Join a scheme-free reference against an absolute base, as
`urllib.parse.urljoin` does after stripping a matching scheme. -/
def joinNoScheme (base ref : Str) : Str :=
  if isPrefixOfB (chars "//") ref then schemeOf base ++ ':' :: ref
  else if isPrefixOfB (chars "/") ref then schemeOf base ++ chars "://" ++ netlocOf base ++ ref
  else if ref.isEmpty then base
  else schemeOf base ++ chars "://" ++ netlocOf base ++ dirOfPath (pathOf base) ++ ref

/-- Models `urllib.parse.urljoin(base, url)` at the fidelity the source
relies on: a reference carrying a scheme different from the base's passes
through unchanged; otherwise it is merged with the base's scheme, netloc
and path (dot-segment normalisation and query splitting not modelled, as
no claim exercises them). -/
def urljoin (base url : Str) : Str :=
  match parseScheme url with
  | some (sch, rest) => if sch = schemeOf base then joinNoScheme base rest else url
  | none => joinNoScheme base url

/-- The URL-resolution step of the scanner (src/main.py:126-137). -/
def resolveUrl (base u : Str) : Str :=
  if isPrefixOfB (chars "http://") u || isPrefixOfB (chars "https://") u then u
  else if isPrefixOfB (chars "//") u then chars "https:" ++ u
  else if isPrefixOfB (chars "/") u then schemeOf base ++ chars "://" ++ netlocOf base ++ u
  else urljoin base u

/-- The seen-set de-duplication loop of the scanner (src/main.py:140-145),
with the set modelled as a list queried by membership. -/
def dedupGo (seen : List Str) : List Str → List Str
  | [] => []
  | u :: us => if u ∈ seen then dedupGo seen us else u :: dedupGo (u :: seen) us

/-- `dedupGo` started from an empty seen set. -/
def dedupCode (l : List Str) : List Str := dedupGo [] l

/-- Tier 1: `src` attributes on `<video>` tags (src/main.py:106-108). -/
def tier1 (html : Str) : List Str := scanTagSrc (chars "<video") (html.length + 1) html

/-- Tier 2: `src` attributes on `<source>` tags (src/main.py:111-113). -/
def tier2 (html : Str) : List Str := scanTagSrc (chars "<source") (html.length + 1) html

/-- Tier 3: `data-src` attributes with a media extension (src/main.py:116-118). -/
def tier3 (html : Str) : List Str := scanDataSrc (html.length + 1) html

/-- Tier 4: quoted absolute media URLs anywhere (src/main.py:121-123). -/
def tier4 (html : Str) : List Str := scanJsonUrl (html.length + 1) html

/-- All raw matches, tiers concatenated in priority order (src/main.py:103-123). -/
def rawMatches (html : Str) : List Str := tier1 html ++ tier2 html ++ tier3 html ++ tier4 html

/-- `extract_video_src_from_html` (src/main.py:99-147): scan, resolve,
de-duplicate. -/
def extract_video_src_from_html (html base : Str) : List Str :=
  dedupCode ((rawMatches html).map (resolveUrl base))

example : extract_video_src_from_html (chars "<video src=\"a.mp4\">") (chars "https://x.test/p")
    = [chars "https://x.test/a.mp4"] := by decide
example : tier1 (chars "<video data-src=\"a.txt\">") = [chars "a.txt"] := by decide
example : extract_video_src_from_html (chars "<video src=\"//cdn.test/v.mp4\">")
    (chars "https://x.test/p") = [chars "https://cdn.test/v.mp4"] := by decide
example : extract_video_src_from_html (chars "<video src=\"ftp://evil/v.mp4\">")
    (chars "https://x.test/p") = [chars "ftp://evil/v.mp4"] := by decide
example : extract_video_src_from_html
    (chars "<video src=\"/v.mp4\"><source src=\"b.mp4\">") (chars "https://x.test/p")
    = [chars "https://x.test/v.mp4", chars "https://x.test/b.mp4"] := by decide
example : extract_video_src_from_html
    (chars "<video src=\"https://c.test/v.mp4\">var u = \"https://c.test/v.mp4\";")
    (chars "https://x.test/p") = [chars "https://c.test/v.mp4"] := by decide

/-- The line-keeping predicate of the VTT decoder: not blank, not a
`WEBVTT` header line, no timestamp arrow, not starting with `<`, not all
digits (src/main.py:360-364). -/
def keepVttLine (line : Str) : Bool :=
  !(line.isEmpty || isPrefixOfB (chars "WEBVTT") line || containsSub (chars "-->") line
    || isPrefixOfB (chars "<") line || isDigitsB line)

/-- The accumulation loop of `parse_vtt` (src/main.py:357-369). -/
def vttLoop : List Str → List Str
  | [] => []
  | l :: ls =>
    if (trimStr l).isEmpty || isPrefixOfB (chars "WEBVTT") (trimStr l)
        || containsSub (chars "-->") (trimStr l) || isPrefixOfB (chars "<") (trimStr l) then
      vttLoop ls
    else if isDigitsB (trimStr l) then vttLoop ls
    else removeTags (trimStr l) :: vttLoop ls

/-- `parse_vtt` (src/main.py:350-371). -/
def parse_vtt (s : Str) : Str := joinSpace (vttLoop (splitLines s))

/-- The declarative form of the (amended) VTT contract: trim every line,
keep those passing `keepVttLine`, strip tags, join with single spaces. -/
def parseVttSpec (s : Str) : Str :=
  joinSpace ((((splitLines s).map trimStr).filter keepVttLine).map removeTags)

example : parse_vtt (chars "WEBVTT\n\n1\n00:00:00.000 --> 00:00:01.000\n<i>Hello</i>")
    = chars "" := by decide
example : parse_vtt
    (chars "WEBVTT\n\n00:00 --> 00:01\nHello <i>world</i>\n\n2\n00:02 --> 00:03\nBye <b>now</b>")
    = chars "Hello world Bye now" := by decide

/-- A yt-dlp format descriptor as the source reads it (src/main.py:305-320):
dict keys become `Option` fields (`none` = key absent or `None`); the
numeric fields are modelled as naturals, which carries the full ordering
content of the selection logic. -/
structure FmtD where
  vcodec : Option Str
  height : Option Nat
  tbr : Option Nat
  filesize : Option Nat
  url : Option Str
deriving DecidableEq

/-- The sort key `(height or 0, tbr or 0, filesize or 0)` (src/main.py:310-314). -/
def fkey (f : FmtD) : Nat × Nat × Nat :=
  (f.height.getD 0, f.tbr.getD 0, f.filesize.getD 0)

/-- Lexicographic order on sort keys, as Python compares tuples. -/
def keyLt (a b : Nat × Nat × Nat) : Prop :=
  a.1 < b.1 ∨ (a.1 = b.1 ∧ (a.2.1 < b.2.1 ∨ (a.2.1 = b.2.1 ∧ a.2.2 < b.2.2)))

instance (a b : Nat × Nat × Nat) : Decidable (keyLt a b) := by
  unfold keyLt; infer_instance

/-- `a` may precede `b` in the descending stable sort: `a`'s key is not
smaller than `b`'s. `list.sort(key=..., reverse=True)` is exactly the
stable sort by this relation. -/
def fmtGe (a b : FmtD) : Prop := ¬ keyLt (fkey a) (fkey b)

instance : DecidableRel fmtGe := fun _ _ => instDecidableNot

instance : IsTotal FmtD fmtGe := by
  constructor
  intro a b
  unfold fmtGe keyLt
  rcases fkey a with ⟨x1, x2, x3⟩
  rcases fkey b with ⟨y1, y2, y3⟩
  simp only
  omega

instance : IsTrans FmtD fmtGe := by
  constructor
  intro a b c
  unfold fmtGe keyLt
  rcases fkey a with ⟨x1, x2, x3⟩
  rcases fkey b with ⟨y1, y2, y3⟩
  rcases fkey c with ⟨z1, z2, z3⟩
  simp only
  omega

/-- Python truthiness of `f.get('url')`: present and nonempty. -/
def truthyUrl (f : FmtD) : Bool :=
  match f.url with
  | some s => !s.isEmpty
  | none => false

/-- The filter `f.get('vcodec') != 'none' and f.get('url')` (src/main.py:307). -/
def videoFormats (fs : List FmtD) : List FmtD :=
  fs.filter (fun f => decide (f.vcodec ≠ some (chars "none")) && truthyUrl f)

/-- `video_formats.sort(key=..., reverse=True)` (src/main.py:310-314): the
stable descending sort, modelled by insertion sort with `fmtGe`. -/
def sortFormats (fs : List FmtD) : List FmtD := List.insertionSort fmtGe fs

/-- The fallback loop over all formats (src/main.py:316-320): the first
entry with a truthy URL. -/
def firstUrlLoop : List FmtD → List Str
  | [] => []
  | f :: fs => if truthyUrl f then [f.url.getD []] else firstUrlLoop fs

/-- The format-selection block (src/main.py:305-320): the resulting
`video_urls` list. -/
def selectFromFormats (fs : List FmtD) : List Str :=
  let vf := videoFormats fs
  if !vf.isEmpty then
    match sortFormats vf with
    | f :: _ => [f.url.getD []]
    | [] => []
  else if !fs.isEmpty then firstUrlLoop fs
  else []

/-- A subtitle track as the metadata extractor reports it. The source never
reads this data; it is carried in the model to state claims about it. -/
structure Track where
  lang : Str
  ext : Str
  surl : Str
deriving DecidableEq

/-- The fields of the yt-dlp `info` dict that the source reads (plus the
subtitle tracks it ignores). `title = none` models an absent key. -/
structure YdlInfo where
  title : Option Str
  formats : Option (List FmtD)
  subtitles : List Track
deriving DecidableEq

/-- The playwright stage's returned dict (src/main.py:245-249). -/
structure ExtractResult where
  title : Str
  video_url : Str
  success : Bool
deriving DecidableEq

/-- One request's environment: the outcome of each external call. An
`Except.error` carries the text `str(e)` of the raised exception. -/
structure Env where
  pw : Except Str ExtractResult
  fetchHtml : Except Str Str
  ydl : Except Str YdlInfo

/-- The custom exception `TranscriptionError` (src/main.py:52-58). -/
structure TranscriptionError where
  status_code : Nat
  message : Str
  original_error : Str
deriving DecidableEq

/-- `status_code, message = classify_error(e); raise TranscriptionError(...)`
(src/main.py:332-347). -/
def raiseClassified (emsg : Str) : Except TranscriptionError ExtractResult :=
  .error ⟨(classify_error emsg).1, (classify_error emsg).2, emsg⟩

/-- `extract_video_url` (src/main.py:261-347): the playwright attempt with
its failure swallowed, then the raw fetch (whose exceptions propagate to
the classifying handlers), the HTML scan, the yt-dlp fallback when the
scan is empty, and the final no-URL exception. -/
def extract_video_url (env : Env) (url : Str) : Except TranscriptionError ExtractResult :=
  match env.pw with
  | .ok r => .ok r
  | .error _ =>
    match env.fetchHtml with
    | .error emsg => raiseClassified emsg
    | .ok html =>
      match extract_video_src_from_html html url with
      | u :: _ => .ok ⟨((titleOf html).map trimStr).getD (chars "Unknown"), u, true⟩
      | [] =>
        match env.ydl with
        | .error emsg => raiseClassified emsg
        | .ok info =>
          match (match info.formats with
                 | some fs => selectFromFormats fs
                 | none => []) with
          | u :: _ =>
            .ok ⟨info.title.getD (((titleOf html).map trimStr).getD (chars "Unknown")), u, true⟩
          | [] => raiseClassified (chars "No video source URL found in page")

instance {ε α : Type} [DecidableEq ε] [DecidableEq α] : DecidableEq (Except ε α) := by
  intro a b
  cases a <;> cases b <;> first
    | (apply isFalse; intro h; exact Except.noConfusion h)
    | (rename_i x y
       exact if h : x = y then isTrue (by rw [h]) else isFalse (by intro hc; cases hc; exact h rfl))

/-- The response model `TranscriptionResponse` (src/main.py:45-49): its
only fields are `url`, `title`, `video_url` and `success`. -/
structure TranscriptionResponse where
  url : Str
  title : Str
  video_url : Str
  success : Bool
deriving DecidableEq

/-- The handler's outcome: a 200 body or an `HTTPException(status, detail)`. -/
inductive HandlerResult where
  | success (r : TranscriptionResponse)
  | httpError (status_code : Nat) (detail : Str)
deriving DecidableEq

/-- `transcribe_video` (src/main.py:454-485): call the cascade, return a
200 response on success, map a `TranscriptionError` to an HTTP error with
its canonical message as the detail. -/
def transcribe_video (env : Env) (url : Str) : HandlerResult :=
  match extract_video_url env url with
  | .ok r => .success ⟨url, r.title, r.video_url, true⟩
  | .error e => .httpError e.status_code e.message

example : selectFromFormats
    [⟨some (chars "none"), none, none, none, none⟩,
     ⟨some (chars "h264"), some 480, none, none, some (chars "u1")⟩,
     ⟨some (chars "h264"), some 1080, none, none, some (chars "u2")⟩]
    = [chars "u2"] := by decide

example : selectFromFormats
    [⟨some (chars "none"), none, none, none, some (chars "a1")⟩,
     ⟨some (chars "none"), none, none, none, some (chars "a2")⟩]
    = [chars "a1"] := by decide

example :
    extract_video_url
      ⟨.error (chars "boom"), .error (chars "HTTP Error 403: Forbidden"),
        .ok ⟨some (chars "T"), some [⟨some (chars "h264"), some 480, none, none,
          some (chars "u1")⟩], []⟩⟩
      (chars "https://x.test/p")
    = .error ⟨403, chars "Access denied: The video source is blocking access to this content",
        chars "HTTP Error 403: Forbidden"⟩ := by decide

example :
    transcribe_video
      ⟨.error (chars "Timeout waiting for page to load"),
        .ok (chars "<html><body>nothing here</body></html>"),
        .ok ⟨some (chars "Video"), none, [⟨chars "en", chars "vtt", chars "https://s/x.vtt"⟩]⟩⟩
      (chars "https://example.test/watch")
    = .httpError 400 (chars "No video URL available: Unable to extract video source URL") := by
  decide

/-- First-occurrence de-duplication stated declaratively: keep the head,
drop its later duplicates, recurse. -/
def dedupSpec : List Str → List Str
  | [] => []
  | x :: xs => x :: dedupSpec (xs.filter (fun y => y ≠ x))
termination_by l => l.length
decreasing_by
  simp only [List.length_cons]
  exact Nat.lt_succ_of_le (List.length_filter_le _ _)

theorem dedupSpec_nil : dedupSpec [] = [] := by
  rw [dedupSpec]

theorem dedupSpec_cons (x : Str) (xs : List Str) :
    dedupSpec (x :: xs) = x :: dedupSpec (xs.filter (fun y => y ≠ x)) := by
  rw [dedupSpec]

theorem mem_dedupSpec (l : List Str) (a : Str) : a ∈ dedupSpec l ↔ a ∈ l := by
  induction l using dedupSpec.induct with
  | case1 => rw [dedupSpec_nil]
  | case2 x xs ih =>
    rw [dedupSpec_cons]
    by_cases hax : a = x
    · subst hax; simp
    · simp only [List.mem_cons, hax, false_or, ih, List.mem_filter]
      simp [hax]

theorem nodup_dedupSpec (l : List Str) : (dedupSpec l).Nodup := by
  induction l using dedupSpec.induct with
  | case1 => rw [dedupSpec_nil]; exact List.nodup_nil
  | case2 x xs ih =>
    rw [dedupSpec_cons]
    refine List.nodup_cons.mpr ⟨?_, ih⟩
    intro hx
    have hmem := (mem_dedupSpec _ _).mp hx
    simp [List.mem_filter] at hmem

theorem dedupSpec_append_aux : ∀ (n : Nat) (xs ys : List Str), xs.length ≤ n →
    dedupSpec (xs ++ ys) = dedupSpec xs ++ dedupSpec (ys.filter (fun y => y ∉ xs)) := by
  intro n
  induction n with
  | zero =>
    intro xs ys h
    have hxs : xs = [] := List.eq_nil_of_length_eq_zero (Nat.le_zero.mp h)
    subst hxs
    simp only [List.nil_append, dedupSpec_nil]
    rw [List.filter_congr (q := fun _ => true) (by simp), List.filter_true]
  | succ n ih =>
    intro xs ys h
    match xs with
    | [] =>
      simp only [List.nil_append, dedupSpec_nil]
      rw [List.filter_congr (q := fun _ => true) (by simp), List.filter_true]
    | x :: xs' =>
      rw [List.cons_append, dedupSpec_cons, dedupSpec_cons, List.filter_append]
      have hlen : (xs'.filter (fun y => y ≠ x)).length ≤ n := by
        have h1 := List.length_filter_le (fun y => decide (y ≠ x)) xs'
        have h2 : xs'.length ≤ n := by
          simp only [List.length_cons] at h
          omega
        omega
      rw [ih _ _ hlen, List.cons_append]
      congr 2
      rw [List.filter_filter]
      congr 1
      refine List.filter_congr ?_
      intro a _
      by_cases hax : a = x
      · simp [hax]
      · by_cases haxs : a ∈ xs' <;> simp [hax, haxs]

theorem dedupSpec_append (xs ys : List Str) :
    dedupSpec (xs ++ ys) = dedupSpec xs ++ dedupSpec (ys.filter (fun y => y ∉ xs)) :=
  dedupSpec_append_aux xs.length xs ys (Nat.le_refl _)

theorem dedupGo_eq (l : List Str) : ∀ seen : List Str,
    dedupGo seen l = dedupSpec (l.filter (fun y => y ∉ seen)) := by
  induction l with
  | nil => intro seen; rw [dedupGo, List.filter_nil, dedupSpec_nil]
  | cons u us ih =>
    intro seen
    rw [dedupGo, List.filter_cons]
    by_cases hu : u ∈ seen
    · rw [if_pos hu, if_neg (by simp [hu])]
      exact ih seen
    · rw [if_neg hu, if_pos (by simp [hu])]
      rw [dedupSpec_cons, ih (u :: seen)]
      have hf : (us.filter (fun y => decide (y ∉ u :: seen)))
          = ((us.filter (fun y => decide (y ∉ seen))).filter (fun y => decide (y ≠ u))) := by
        rw [List.filter_filter]
        refine List.filter_congr ?_
        intro a _
        by_cases hax : a = u
        · simp [hax]
        · by_cases has : a ∈ seen <;> simp [hax, has]
      rw [hf]

theorem dedupCode_eq_dedupSpec (l : List Str) : dedupCode l = dedupSpec l := by
  rw [dedupCode, dedupGo_eq]
  congr 1
  rw [List.filter_congr (q := fun _ => true) (by simp), List.filter_true]

theorem posOf_append_left (u : Str) (A B : List Str) (h : u ∈ A) :
    posOf u (A ++ B) = posOf u A := by
  induction A with
  | nil => cases h
  | cons a as ih =>
    rw [List.cons_append, posOf, posOf]
    by_cases hau : a = u
    · simp [hau]
    · rcases List.mem_cons.mp h with h' | h'
      · exact absurd h'.symm hau
      · simp [hau, ih h']

theorem posOf_append_right (u : Str) (A B : List Str) (h : u ∉ A) :
    posOf u (A ++ B) = A.length + posOf u B := by
  induction A with
  | nil => simp [posOf]
  | cons a as ih =>
    rw [List.cons_append, posOf]
    have hau : a ≠ u := fun he => h (he ▸ List.mem_cons_self a as)
    have h' : u ∉ as := fun hm => h (List.mem_cons_of_mem _ hm)
    simp only [hau, if_false, ite_false, ih h', List.length_cons]
    omega

theorem posOf_lt_length (u : Str) (A : List Str) (h : u ∈ A) : posOf u A < A.length := by
  induction A with
  | nil => cases h
  | cons a as ih =>
    rw [posOf]
    by_cases hau : a = u
    · simp [hau]
    · rcases List.mem_cons.mp h with h' | h'
      · exact absurd h'.symm hau
      · simp only [hau, ite_false, List.length_cons]
        exact Nat.succ_lt_succ (ih h')

/-- In the first-occurrence de-duplication of `A ++ B`, any element of `A`
is positioned before anything outside `A`. -/
theorem dedup_precedence (A B : List Str) (u v : Str) (hu : u ∈ A) (hv : v ∉ A) :
    posOf u (dedupSpec (A ++ B)) < posOf v (dedupSpec (A ++ B)) := by
  rw [dedupSpec_append]
  have hu' : u ∈ dedupSpec A := (mem_dedupSpec _ _).mpr hu
  have hv' : v ∉ dedupSpec A := fun h => hv ((mem_dedupSpec _ _).mp h)
  rw [posOf_append_left _ _ _ hu', posOf_append_right _ _ _ hv']
  exact Nat.lt_of_lt_of_le (posOf_lt_length _ _ hu') (Nat.le_add_right _ _)

theorem isPrefixOfB_append (p t : Str) : isPrefixOfB p (p ++ t) = true := by
  induction p with
  | nil => rw [isPrefixOfB]
  | cons a as ih => rw [List.cons_append, isPrefixOfB]; simp [ih]

theorem exists_suffix_of_isPrefixOfB (p : Str) : ∀ m : Str,
    isPrefixOfB p m = true → ∃ t, m = p ++ t := by
  induction p with
  | nil => intro m _; exact ⟨m, rfl⟩
  | cons a as ih =>
    intro m h
    match m with
    | [] => rw [isPrefixOfB] at h; cases h
    | b :: bs =>
      rw [isPrefixOfB, Bool.and_eq_true, beq_iff_eq] at h
      obtain ⟨t, ht⟩ := ih bs h.2
      exact ⟨t, by rw [ht, h.1, List.cons_append]⟩

theorem schemeOf_of_http (b : Str) (h : isPrefixOfB (chars "http://") b = true) :
    schemeOf b = chars "http" := by
  obtain ⟨t, rfl⟩ := exists_suffix_of_isPrefixOfB _ _ h
  rfl

theorem schemeOf_of_https (b : Str) (h : isPrefixOfB (chars "https://") b = true) :
    schemeOf b = chars "https" := by
  obtain ⟨t, rfl⟩ := exists_suffix_of_isPrefixOfB _ _ h
  rfl

theorem build_http (X : Str) :
    isPrefixOfB (chars "http://") (chars "http" ++ (chars "://" ++ X)) = true := by
  have e : chars "http" ++ (chars "://" ++ X) = chars "http://" ++ X := rfl
  rw [e]
  exact isPrefixOfB_append _ _

theorem build_https (X : Str) :
    isPrefixOfB (chars "https://") (chars "https" ++ (chars "://" ++ X)) = true := by
  have e : chars "https" ++ (chars "://" ++ X) = chars "https://" ++ X := rfl
  rw [e]
  exact isPrefixOfB_append _ _

/-- Whatever `joinNoScheme` produces over an absolute http(s) base starts
with `http://` or `https://`. -/
theorem joinNoScheme_shape (base ref : Str)
    (hb : isPrefixOfB (chars "http://") base = true
      ∨ isPrefixOfB (chars "https://") base = true) :
    isPrefixOfB (chars "http://") (joinNoScheme base ref) = true
    ∨ isPrefixOfB (chars "https://") (joinNoScheme base ref) = true := by
  have hs : schemeOf base = chars "http" ∨ schemeOf base = chars "https" := by
    rcases hb with h | h
    · exact Or.inl (schemeOf_of_http _ h)
    · exact Or.inr (schemeOf_of_https _ h)
  unfold joinNoScheme
  by_cases h2 : isPrefixOfB (chars "//") ref = true
  · rw [if_pos h2]
    obtain ⟨t, rfl⟩ := exists_suffix_of_isPrefixOfB _ _ h2
    rcases hs with h | h <;> rw [h]
    · left
      have e : chars "http" ++ ':' :: (chars "//" ++ t) = chars "http://" ++ t := rfl
      rw [e]
      exact isPrefixOfB_append _ _
    · right
      have e : chars "https" ++ ':' :: (chars "//" ++ t) = chars "https://" ++ t := rfl
      rw [e]
      exact isPrefixOfB_append _ _
  · rw [if_neg h2]
    by_cases h3 : isPrefixOfB (chars "/") ref = true
    · rw [if_pos h3]
      rcases hs with h | h <;> rw [h]
      · exact Or.inl (build_http _)
      · exact Or.inr (build_https _)
    · rw [if_neg h3]
      by_cases h4 : ref.isEmpty = true
      · rw [if_pos h4]
        exact hb
      · rw [if_neg h4]
        rcases hs with h | h <;> rw [h]
        · exact Or.inl (build_http _)
        · exact Or.inr (build_https _)

/-- Every resolved URL over an absolute http(s) base is absolute http(s),
except a raw match that itself carries a (different) URI scheme, which
passes through unchanged. -/
theorem resolveUrl_shape (base m : Str)
    (hb : isPrefixOfB (chars "http://") base = true
      ∨ isPrefixOfB (chars "https://") base = true) :
    isPrefixOfB (chars "http://") (resolveUrl base m) = true
    ∨ isPrefixOfB (chars "https://") (resolveUrl base m) = true
    ∨ (resolveUrl base m = m ∧ parseScheme m ≠ none) := by
  unfold resolveUrl
  by_cases h1 : (isPrefixOfB (chars "http://") m || isPrefixOfB (chars "https://") m) = true
  · rw [if_pos h1]
    rcases (Bool.or_eq_true _ _).mp h1 with h | h
    · exact Or.inl h
    · exact Or.inr (Or.inl h)
  · rw [if_neg h1]
    by_cases h2 : isPrefixOfB (chars "//") m = true
    · rw [if_pos h2]
      obtain ⟨t, rfl⟩ := exists_suffix_of_isPrefixOfB _ _ h2
      have e : chars "https:" ++ (chars "//" ++ t) = chars "https://" ++ t := rfl
      exact Or.inr (Or.inl (by rw [e]; exact isPrefixOfB_append _ _))
    · rw [if_neg h2]
      by_cases h3 : isPrefixOfB (chars "/") m = true
      · rw [if_pos h3]
        have hs : schemeOf base = chars "http" ∨ schemeOf base = chars "https" := by
          rcases hb with h | h
          · exact Or.inl (schemeOf_of_http _ h)
          · exact Or.inr (schemeOf_of_https _ h)
        rcases hs with h | h <;> rw [h]
        · exact Or.inl (build_http _)
        · exact Or.inr (Or.inl (build_https _))
      · rw [if_neg h3]
        rcases hps : parseScheme m with _ | ⟨sch, rest⟩
        · simp only [urljoin, hps]
          rcases joinNoScheme_shape base m hb with h | h
          · exact Or.inl h
          · exact Or.inr (Or.inl h)
        · simp only [urljoin, hps]
          by_cases he : sch = schemeOf base
          · rw [if_pos he]
            rcases joinNoScheme_shape base rest hb with h | h
            · exact Or.inl h
            · exact Or.inr (Or.inl h)
          · rw [if_neg he]
            exact Or.inr (Or.inr ⟨rfl, fun h => Option.noConfusion h⟩)

/-- The scanner is: raw tier matches, resolved, then first-occurrence
de-duplicated. -/
theorem extract_eq_dedupSpec (html base : Str) :
    extract_video_src_from_html html base
      = dedupSpec ((rawMatches html).map (resolveUrl base)) :=
  dedupCode_eq_dedupSpec _

theorem keyLt_irrefl (a : Nat × Nat × Nat) : ¬ keyLt a a := by
  rcases a with ⟨x, y, z⟩
  unfold keyLt
  simp only
  omega

/-- The head of the descending stable sort is a member whose key no other
member strictly exceeds. -/
theorem sortFormats_head_max (l : List FmtD) (f : FmtD) (fs : List FmtD)
    (h : sortFormats l = f :: fs) :
    f ∈ l ∧ ∀ g ∈ l, ¬ keyLt (fkey f) (fkey g) := by
  have hperm : (sortFormats l).Perm l := List.perm_insertionSort fmtGe l
  constructor
  · exact hperm.mem_iff.mp (by rw [h]; exact List.mem_cons_self _ _)
  · intro g hg
    have hg' : g ∈ sortFormats l := hperm.mem_iff.mpr hg
    have hs : List.Sorted fmtGe (sortFormats l) := List.sorted_insertionSort fmtGe l
    rw [h] at hg' hs
    rcases List.mem_cons.mp hg' with rfl | hgf
    · exact keyLt_irrefl _
    · exact List.rel_of_sorted_cons hs g hgf

/-- The fallback loop returns the URL of the first format found with a
truthy URL. -/
theorem firstUrlLoop_eq_find (fs : List FmtD) :
    firstUrlLoop fs = (match fs.find? truthyUrl with
      | some f => [f.url.getD []]
      | none => []) := by
  induction fs with
  | nil => rfl
  | cons f fs ih =>
    rw [firstUrlLoop]
    by_cases hf : truthyUrl f = true
    · rw [if_pos hf, List.find?_cons_of_pos _ hf]
    · rw [if_neg hf, List.find?_cons_of_neg _ (by simpa using hf), ih]

/-- The VTT accumulation loop is the trim-filter-strip pipeline. -/
theorem vttLoop_eq (ls : List Str) :
    vttLoop ls = ((ls.map trimStr).filter keepVttLine).map removeTags := by
  induction ls with
  | nil => rfl
  | cons l ls ih =>
    rw [vttLoop, List.map_cons, List.filter_cons]
    cases h1 : ((trimStr l).isEmpty || isPrefixOfB (chars "WEBVTT") (trimStr l)
        || containsSub (chars "-->") (trimStr l) || isPrefixOfB (chars "<") (trimStr l)) with
    | true => rw [if_pos rfl, ih, if_neg (by simp [keepVttLine, h1])]
    | false =>
      cases h2 : isDigitsB (trimStr l) with
      | true =>
        rw [if_neg (by simp), if_pos rfl, ih, if_neg (by simp [keepVttLine, h2])]
      | false =>
        rw [if_neg (by simp), if_neg (by simp),
          if_pos (by simp [keepVttLine, h1, h2]), List.map_cons, ih]

/-- The seven constant classified messages (all but the 500 case). -/
def canonicalMessages : List Str :=
  [chars "Access denied: The video source is blocking access to this content",
   chars "Video not found: The requested video could not be found",
   chars "Unauthorized: Authentication required to access this content",
   chars "Request timeout: Page took too long to load",
   chars "Service unavailable: Network error while accessing the video source",
   chars "Bad request: Unable to process this video URL",
   chars "No video URL available: Unable to extract video source URL"]

/-- Every classification is a fixed canonical message with a non-500
status, or the 500 case embedding the original message. -/
theorem classify_canonical (m : Str) :
    ((classify_error m).2 ∈ canonicalMessages ∧ (classify_error m).1 ≠ 500)
    ∨ classify_error m = (500, chars "Internal server error: " ++ m) := by
  unfold classify_error
  split_ifs <;> first
    | exact Or.inl ⟨by decide, by decide⟩
    | exact Or.inr rfl

/-- Every error the cascade raises went through `classify_error` on some
message, which is retained as the original cause. -/
theorem extract_error_classified (env : Env) (url : Str) (e : TranscriptionError)
    (h : extract_video_url env url = .error e) :
    ∃ m, e = ⟨(classify_error m).1, (classify_error m).2, m⟩ := by
  rcases env with ⟨pw, fh, ydl⟩
  cases pw with
  | ok r => exact absurd h (by simp [extract_video_url])
  | error p =>
    cases fh with
    | error m => exact ⟨m, (Except.error.inj h).symm⟩
    | ok html =>
      cases hscan : extract_video_src_from_html html url with
      | cons u us => simp [extract_video_url, hscan] at h
      | nil =>
        cases ydl with
        | error m =>
          simp only [extract_video_url, hscan] at h
          exact ⟨m, (Except.error.inj h).symm⟩
        | ok info =>
          cases hv : (match info.formats with
                      | some fs => selectFromFormats fs
                      | none => []) with
          | cons u us => simp [extract_video_url, hscan, hv] at h
          | nil =>
            simp only [extract_video_url, hscan, hv] at h
            exact ⟨chars "No video source URL found in page", (Except.error.inj h).symm⟩

theorem slash_of_slash2 (m : Str) (h : isPrefixOfB (chars "//") m = true) :
    isPrefixOfB (chars "/") m = true := by
  obtain ⟨t, rfl⟩ := exists_suffix_of_isPrefixOfB _ _ h
  rfl

/-- No keyword of any decision-table rule occurs (case-insensitively) in
the message. -/
abbrev noRuleMatches (m : Str) : Prop :=
  containsSub (chars "403") (lowerStr m) = false
  ∧ containsSub (chars "forbidden") (lowerStr m) = false
  ∧ containsSub (chars "404") (lowerStr m) = false
  ∧ containsSub (chars "not found") (lowerStr m) = false
  ∧ containsSub (chars "does not exist") (lowerStr m) = false
  ∧ containsSub (chars "401") (lowerStr m) = false
  ∧ containsSub (chars "unauthorized") (lowerStr m) = false
  ∧ containsSub (chars "timeout") (lowerStr m) = false
  ∧ containsSub (chars "took too long") (lowerStr m) = false
  ∧ containsSub (chars "connection") (lowerStr m) = false
  ∧ containsSub (chars "network") (lowerStr m) = false
  ∧ containsSub (chars "unsupported url") (lowerStr m) = false
  ∧ containsSub (chars "no video formats found") (lowerStr m) = false
  ∧ containsSub (chars "unable to extract") (lowerStr m) = false
  ∧ containsSub (chars "unable to download") (lowerStr m) = false
  ∧ containsSub (chars "no video url found") (lowerStr m) = false
  ∧ containsSub (chars "no video") (lowerStr m) = false

/-- Claim C2 counterexample: the message "Connection timed out" is
classified 503 by the connection rule, not 408 — the timeout rule's
keywords ("timeout", "took too long") do not occur in "timed out". -/
theorem claim_C2_counterexample :
    classify_error (chars "Connection timed out")
      = (503, chars "Service unavailable: Network error while accessing the video source")
    ∧ (classify_error (chars "Connection timed out")).1 ≠ 408 := by
  decide

/-- Claim C2 (amended): the classifier applies the fixed ordered decision
table case-insensitively with first-match-wins; messages containing
"403"/"forbidden" yield 403 before any other rule; "Connection timed out"
yields 503 (the timeout keywords do not match "timed out", so the
connection rule applies), while "Connection timeout" yields 408 because
the timeout rule precedes the connection rule; and any message matching no
rule yields 500 with the original message text preserved in the detail. -/
theorem claim_C2 :
    (∀ m : Str, containsSub (chars "403") (lowerStr m) = true
        ∨ containsSub (chars "forbidden") (lowerStr m) = true →
      classify_error m
        = (403, chars "Access denied: The video source is blocking access to this content"))
    ∧ (∀ m m2 : Str, lowerStr m = lowerStr m2 →
        (classify_error m).1 = (classify_error m2).1)
    ∧ classify_error (chars "Connection timed out")
      = (503, chars "Service unavailable: Network error while accessing the video source")
    ∧ classify_error (chars "Connection timeout")
      = (408, chars "Request timeout: Page took too long to load")
    ∧ (∀ m : Str, noRuleMatches m →
        classify_error m = (500, chars "Internal server error: " ++ m)) := by
  refine ⟨?_, ?_, by decide, by decide, ?_⟩
  · intro m h
    rcases h with h | h <;> simp [classify_error, h]
  · intro m m2 he
    simp only [classify_error, he]
    split_ifs <;> rfl
  · intro m h
    obtain ⟨h1, h2, h3, h4, h5, h6, h7, h8, h9, h10, h11, h12, h13, h14, h15, h16, h17⟩ := h
    simp [classify_error, h1, h2, h3, h4, h5, h6, h7, h8, h9, h10, h11, h12, h13, h14, h15,
      h16, h17]

/-- Claim C2 witness: concrete rule hits obtained from the theorem. -/
theorem claim_C2_witness :
    classify_error (chars "HTTP 403 Forbidden")
      = (403, chars "Access denied: The video source is blocking access to this content")
    ∧ classify_error (chars "xyz") = (500, chars "Internal server error: " ++ chars "xyz") :=
  ⟨claim_C2.1 (chars "HTTP 403 Forbidden") (Or.inl (by decide)),
   claim_C2.2.2.2.2 (chars "xyz") (by decide)⟩

/-- The audio-only entry of the selector example. -/
def exFmtA : FmtD := ⟨some (chars "none"), none, none, none, none⟩

/-- The 480p entry of the selector example. -/
def exFmt480 : FmtD := ⟨some (chars "h264"), some 480, none, none, some (chars "u1")⟩

/-- The 1080p entry of the selector example. -/
def exFmt1080 : FmtD := ⟨some (chars "h264"), some 1080, none, none, some (chars "u2")⟩

/-- The selector example's format collection. -/
def exFormats : List FmtD := [exFmtA, exFmt480, exFmt1080]

/-- Claim C3 (confirmed): the selector filters out entries declaring no
video codec or lacking a (truthy) source URL; the selected entry is a
member of the filtered collection whose composite key (height, bitrate,
file size — absent treated as zero) no other member strictly exceeds, and
its URL is returned; if the filter removes everything it falls back to the
first entry of the original collection with any source URL; and the
concrete three-format example selects "u2". -/
theorem claim_C3 :
    (∀ (fs : List FmtD) (f : FmtD), f ∈ videoFormats fs ↔
      f ∈ fs ∧ f.vcodec ≠ some (chars "none") ∧ truthyUrl f = true)
    ∧ (∀ (fs : List FmtD) (f : FmtD) (rest : List FmtD),
        sortFormats (videoFormats fs) = f :: rest →
        selectFromFormats fs = [f.url.getD []]
        ∧ f ∈ videoFormats fs
        ∧ ∀ g ∈ videoFormats fs, ¬ keyLt (fkey f) (fkey g))
    ∧ (∀ fs : List FmtD, videoFormats fs = [] →
        selectFromFormats fs = (match fs.find? truthyUrl with
          | some f => [f.url.getD []]
          | none => []))
    ∧ selectFromFormats exFormats = [chars "u2"] := by
  refine ⟨?_, ?_, ?_, by decide⟩
  · intro fs f
    simp [videoFormats, List.mem_filter, and_assoc]
  · intro fs f rest h
    have hm := sortFormats_head_max _ _ _ h
    refine ⟨?_, hm.1, hm.2⟩
    cases hvf : videoFormats fs with
    | nil => rw [hvf] at h; exact absurd h (by simp [sortFormats, List.insertionSort])
    | cons v vs =>
      rw [hvf] at h
      simp only [selectFromFormats, hvf, List.isEmpty_cons, Bool.not_false, if_pos, ite_true, h]
  · intro fs h
    cases fs with
    | nil => rfl
    | cons f fs' =>
      simp only [selectFromFormats, h, List.isEmpty_nil, Bool.not_true, List.isEmpty_cons,
        Bool.not_false, ite_false, ite_true, if_neg, if_pos]
      exact firstUrlLoop_eq_find _

/-- Claim C3 witness: the theorem applied to the example collection. -/
theorem claim_C3_witness :
    selectFromFormats exFormats = [exFmt1080.url.getD []]
    ∧ exFmt1080 ∈ videoFormats exFormats :=
  ⟨(claim_C3.2.1 exFormats exFmt1080 [exFmt480] (by decide)).1,
   (claim_C3.2.1 exFormats exFmt1080 [exFmt480] (by decide)).2.1⟩

/-- Claim C4 (confirmed): resolution is as described in all four cases
(absolute pass-through, protocol-relative gets "https:", root-relative
gets the base's scheme and host, other relative URLs go through standard
resolution against the full base URL); de-duplication of the resolved
URLs keeps first occurrences under exact string equality; and the concrete
example resolves to exactly ["https://x.test/a.mp4"]. -/
theorem claim_C4 :
    (∀ base m : Str, isPrefixOfB (chars "http://") m = true
        ∨ isPrefixOfB (chars "https://") m = true →
      resolveUrl base m = m)
    ∧ (∀ base m : Str, isPrefixOfB (chars "//") m = true →
      resolveUrl base m = chars "https:" ++ m)
    ∧ (∀ base m : Str, isPrefixOfB (chars "/") m = true →
        isPrefixOfB (chars "//") m = false →
      resolveUrl base m = schemeOf base ++ chars "://" ++ netlocOf base ++ m)
    ∧ (∀ base m : Str, isPrefixOfB (chars "http://") m = false →
        isPrefixOfB (chars "https://") m = false → isPrefixOfB (chars "/") m = false →
      resolveUrl base m = urljoin base m)
    ∧ (∀ html base : Str, extract_video_src_from_html html base
        = dedupSpec ((rawMatches html).map (resolveUrl base)))
    ∧ extract_video_src_from_html (chars "<video src=\"a.mp4\">") (chars "https://x.test/p")
      = [chars "https://x.test/a.mp4"] := by
  refine ⟨?_, ?_, ?_, ?_, fun html base => extract_eq_dedupSpec html base, by decide⟩
  · intro base m h
    unfold resolveUrl
    rw [if_pos (by rcases h with h | h <;> simp [h])]
  · intro base m h
    obtain ⟨t, rfl⟩ := exists_suffix_of_isPrefixOfB _ _ h
    rfl
  · intro base m h h2
    obtain ⟨t, rfl⟩ := exists_suffix_of_isPrefixOfB _ _ h
    unfold resolveUrl
    rw [if_neg (by simp [isPrefixOfB, chars]), if_neg (by simp [h2]), if_pos (by rfl)]
  · intro base m h1 h2 h3
    have h4 : isPrefixOfB (chars "//") m = false := by
      cases hx : isPrefixOfB (chars "//") m
      · rfl
      · rw [slash_of_slash2 m hx] at h3
        exact Bool.noConfusion h3
    unfold resolveUrl
    rw [if_neg (by simp [h1, h2]), if_neg (by simp [h4]), if_neg (by simp [h3])]

/-- Claim C4 witness: protocol-relative resolution obtained from the
theorem. -/
theorem claim_C4_witness :
    resolveUrl (chars "https://x.test/p") (chars "//cdn.test/v.mp4")
      = chars "https:" ++ chars "//cdn.test/v.mp4" :=
  claim_C4.2.1 (chars "https://x.test/p") (chars "//cdn.test/v.mp4") (by decide)

/-- Claim C5 counterexample: a payload line that begins with a markup tag
is dropped entirely (the decoder skips every line starting with a `<`),
and a line merely beginning with the header word is also dropped, so the
decoder returns "" where the claim predicts "WEBVTT extra Hi". -/
theorem claim_C5_counterexample :
    parse_vtt (chars "WEBVTT\nWEBVTT extra\n1\n00:00:00.000 --> 00:00:01.000\n<i>Hi</i>")
      = chars ""
    ∧ chars "" ≠ chars "WEBVTT extra Hi" := by
  decide

/-- Claim C5 (amended): the decoder's output is the concatenation of all
kept payload lines joined by single spaces in original order, with inline
markup tags stripped from each kept line, excluding exactly the lines
that are empty after trimming, begin with the format header "WEBVTT",
contain the timestamp arrow, begin with "<" (so payload lines beginning
with a markup tag are dropped whole rather than stripped), or consist
solely of digits; the function is total and never raises. -/
theorem claim_C5 :
    (∀ s : Str, parse_vtt s = parseVttSpec s)
    ∧ parse_vtt
        (chars "WEBVTT\n\n00:00 --> 00:01\nHello <i>world</i>\n\n2\n00:02 --> 00:03\nBye <b>now</b>")
      = chars "Hello world Bye now" := by
  refine ⟨?_, by decide⟩
  intro s
  unfold parse_vtt parseVttSpec
  rw [vttLoop_eq]

/-- Claim C10 (confirmed): a `data-src` attribute on a video tag is
emitted as a tier-1 candidate because the tier-1 pattern's `[^>]+` can end
just before the `src=` suffix of `data-src=`; the media-extension
restriction of tier 3 is thereby bypassed. -/
theorem claim_C10 :
    tier1 (chars "<video data-src=\"a.txt\">") = [chars "a.txt"]
    ∧ tier3 (chars "<video data-src=\"a.txt\">") = []
    ∧ extract_video_src_from_html (chars "<video data-src=\"a.txt\">") (chars "https://x.test/p")
      = [chars "https://x.test/a.txt"] := by
  decide

/-- Claim C1 counterexample: with the renderer failing, the raw fetch
raising a 403 and the metadata extractor able to succeed (as the second
conjunct shows it would on the very same extractor data), the request's
outcome is the classified fetch failure — the extractor stage is never
reached, contradicting "the request as a whole fails only when every
configured stage has failed". -/
theorem claim_C1_counterexample :
    extract_video_url
      ⟨.error (chars "boom"), .error (chars "HTTP Error 403: Forbidden"),
        .ok ⟨some (chars "T"),
          some [⟨some (chars "h264"), some 480, none, none, some (chars "u1")⟩], []⟩⟩
      (chars "https://x.test/p")
    = .error ⟨403, chars "Access denied: The video source is blocking access to this content",
        chars "HTTP Error 403: Forbidden"⟩
    ∧ extract_video_url
      ⟨.error (chars "boom"), .ok (chars ""),
        .ok ⟨some (chars "T"),
          some [⟨some (chars "h264"), some 480, none, none, some (chars "u1")⟩], []⟩⟩
      (chars "https://x.test/p")
    = .ok ⟨chars "T", chars "u1", true⟩ := by
  decide

/-- Claim C1 (amended): a renderer-stage failure falls through to the raw
fetch; but when the raw fetch raises, its classified failure is the
request's outcome and the metadata-extractor stage is never consulted (the
outcome is independent of the extractor's result); the extractor runs only
when the fetch succeeds and the scanner yields no candidates, and if the
extractor then raises, that last failure is what is classified. -/
theorem claim_C1 (env : Env) (url : Str) :
    (∀ r, env.pw = .ok r → extract_video_url env url = .ok r)
    ∧ (∀ p m, env.pw = .error p → env.fetchHtml = .error m →
        extract_video_url env url
          = .error ⟨(classify_error m).1, (classify_error m).2, m⟩
        ∧ ∀ ydl2, extract_video_url ⟨env.pw, env.fetchHtml, ydl2⟩ url
            = extract_video_url env url)
    ∧ (∀ p html u us, env.pw = .error p → env.fetchHtml = .ok html →
        extract_video_src_from_html html url = u :: us →
        extract_video_url env url
          = .ok ⟨((titleOf html).map trimStr).getD (chars "Unknown"), u, true⟩)
    ∧ (∀ p html m, env.pw = .error p → env.fetchHtml = .ok html →
        extract_video_src_from_html html url = [] → env.ydl = .error m →
        extract_video_url env url
          = .error ⟨(classify_error m).1, (classify_error m).2, m⟩) := by
  rcases env with ⟨pw, fh, ydl⟩
  refine ⟨?_, ?_, ?_, ?_⟩
  · intro r hp
    simp only at hp
    subst hp
    rfl
  · intro p m hp hf
    simp only at hp hf
    subst hp; subst hf
    exact ⟨rfl, fun ydl2 => rfl⟩
  · intro p html u us hp hf hs
    simp only at hp hf
    subst hp; subst hf
    simp [extract_video_url, hs]
  · intro p html m hp hf hs hy
    simp only at hp hf hy
    subst hp; subst hf; subst hy
    simp [extract_video_url, hs, raiseClassified]

/-- Claim C1 witness: the fetch-failure conjunct applied to a concrete
environment. -/
theorem claim_C1_witness :
    extract_video_url
      ⟨.error (chars "renderer crashed"), .error (chars "URL Error: unreachable"),
        .ok ⟨none, none, []⟩⟩ (chars "https://x.test/q")
      = .error ⟨(classify_error (chars "URL Error: unreachable")).1,
          (classify_error (chars "URL Error: unreachable")).2, chars "URL Error: unreachable"⟩ :=
  ((claim_C1 ⟨.error (chars "renderer crashed"), .error (chars "URL Error: unreachable"),
      .ok ⟨none, none, []⟩⟩ (chars "https://x.test/q")).2.1
    (chars "renderer crashed") (chars "URL Error: unreachable") rfl rfl).1

/-- Claim C6 counterexample: renderer times out, raw fetch returns HTML
with no matching tags, the metadata extractor reports one English VTT
track — yet the service answers 400 "No video URL available", not a 200
response carrying a transcription: subtitle tracks are never read and the
response model has no transcription field. -/
theorem claim_C6_counterexample :
    transcribe_video
      ⟨.error (chars "Timeout waiting for page to load: Page.goto"),
        .ok (chars "<p>hi</p>"),
        .ok ⟨none, none, [⟨chars "en", chars "vtt", chars "https://subs.test/t.vtt"⟩]⟩⟩
      (chars "https://example.test/watch")
    = .httpError 400 (chars "No video URL available: Unable to extract video source URL") := by
  decide

/-- Claim C6 (amended): when the renderer fails, the scanner finds nothing
in the fetched HTML, and the metadata extractor reports subtitle tracks
but no formats, the service returns 400 "No video URL available"; the
extractor's subtitle data is ignored, the response model carries a
`video_url` payload and no transcription, and the VTT decoder plays no
part in the request. -/
theorem claim_C6 (env : Env) (url p html : Str) (ti : Option Str) (tr : Track)
    (hp : env.pw = .error p) (hf : env.fetchHtml = .ok html)
    (hs : extract_video_src_from_html html url = [])
    (hy : env.ydl = .ok ⟨ti, none, [tr]⟩) :
    transcribe_video env url
      = .httpError 400 (chars "No video URL available: Unable to extract video source URL") := by
  rcases env with ⟨pw, fh, ydl⟩
  simp only at hp hf hy
  subst hp; subst hf; subst hy
  simp [transcribe_video, extract_video_url, hs, raiseClassified]
  decide

/-- Claim C6 witness: the amended theorem applied to a concrete
environment. -/
theorem claim_C6_witness :
    transcribe_video
      ⟨.error (chars "Timeout waiting for page to load"),
        .ok (chars "<html><body>nothing here</body></html>"),
        .ok ⟨some (chars "Video"), none, [⟨chars "en", chars "vtt", chars "https://s/x.vtt"⟩]⟩⟩
      (chars "https://example.test/watch")
    = .httpError 400 (chars "No video URL available: Unable to extract video source URL") :=
  claim_C6 _ (chars "https://example.test/watch") (chars "Timeout waiting for page to load")
    (chars "<html><body>nothing here</body></html>") (some (chars "Video"))
    ⟨chars "en", chars "vtt", chars "https://s/x.vtt"⟩ rfl rfl (by decide) rfl

/-- Tier-1 matches after URL resolution. -/
def rt1 (html base : Str) : List Str := (tier1 html).map (resolveUrl base)

/-- Tier-2 matches after URL resolution. -/
def rt2 (html base : Str) : List Str := (tier2 html).map (resolveUrl base)

/-- Tier-3 matches after URL resolution. -/
def rt3 (html base : Str) : List Str := (tier3 html).map (resolveUrl base)

/-- Tier-4 matches after URL resolution. -/
def rt4 (html base : Str) : List Str := (tier4 html).map (resolveUrl base)

/-- Claim C7 (confirmed): the scanner's output is the four tiers'
resolved matches concatenated in priority order under first-seen
de-duplication, and subject to that de-duplication every tier-i match
precedes every later-tier match in the output. -/
theorem claim_C7 (html base : Str) :
    extract_video_src_from_html html base
      = dedupSpec (rt1 html base ++ (rt2 html base ++ (rt3 html base ++ rt4 html base)))
    ∧ (∀ u v, u ∈ rt1 html base →
        v ∈ rt2 html base ++ (rt3 html base ++ rt4 html base) → v ∉ rt1 html base →
        posOf u (extract_video_src_from_html html base)
          < posOf v (extract_video_src_from_html html base))
    ∧ (∀ u v, u ∈ rt1 html base ++ rt2 html base →
        v ∈ rt3 html base ++ rt4 html base → v ∉ rt1 html base ++ rt2 html base →
        posOf u (extract_video_src_from_html html base)
          < posOf v (extract_video_src_from_html html base))
    ∧ (∀ u v, u ∈ rt1 html base ++ (rt2 html base ++ rt3 html base) →
        v ∈ rt4 html base → v ∉ rt1 html base ++ (rt2 html base ++ rt3 html base) →
        posOf u (extract_video_src_from_html html base)
          < posOf v (extract_video_src_from_html html base)) := by
  have heq : extract_video_src_from_html html base
      = dedupSpec (rt1 html base ++ (rt2 html base ++ (rt3 html base ++ rt4 html base))) := by
    rw [extract_eq_dedupSpec]
    congr 1
    simp [rawMatches, rt1, rt2, rt3, rt4, List.map_append]
  refine ⟨heq, ?_, ?_, ?_⟩
  · intro u v hu _ hvn
    rw [heq]
    exact dedup_precedence _ _ u v hu hvn
  · intro u v hu _ hvn
    rw [heq, ← List.append_assoc]
    exact dedup_precedence _ _ u v hu hvn
  · intro u v hu _ hvn
    have hassoc : rt1 html base ++ (rt2 html base ++ (rt3 html base ++ rt4 html base))
        = (rt1 html base ++ (rt2 html base ++ rt3 html base)) ++ rt4 html base := by
      simp [List.append_assoc]
    rw [heq, hassoc]
    exact dedup_precedence _ _ u v hu hvn

/-- Claim C7 witness: tier-1 before tier-2 on a concrete page. -/
theorem claim_C7_witness :
    posOf (chars "https://x.test/a.mp4")
      (extract_video_src_from_html
        (chars "<video src=\"a.mp4\"><source src=\"b.mp4\">") (chars "https://x.test/p"))
    < posOf (chars "https://x.test/b.mp4")
      (extract_video_src_from_html
        (chars "<video src=\"a.mp4\"><source src=\"b.mp4\">") (chars "https://x.test/p")) :=
  (claim_C7 (chars "<video src=\"a.mp4\"><source src=\"b.mp4\">") (chars "https://x.test/p")).2.1
    (chars "https://x.test/a.mp4") (chars "https://x.test/b.mp4")
    (by decide) (by decide) (by decide)

/-- Claim C8 (confirmed): on cascade success the handler returns a 200
response with the request URL, the stage title (the raw-fetch path falls
back to the literal "Unknown" when the page has no title), the payload URL
and success true; on cascade failure it returns the classified status with
the canonical classified message as the whole detail — a fixed constant
string for every non-500 classification, with the raw cause embedded in
the detail only in the 500 case. -/
theorem claim_C8 (env : Env) (url : Str) :
    (∀ r, extract_video_url env url = .ok r →
      transcribe_video env url = .success ⟨url, r.title, r.video_url, true⟩)
    ∧ (∀ e, extract_video_url env url = .error e →
      transcribe_video env url = .httpError e.status_code e.message
      ∧ ((e.message ∈ canonicalMessages ∧ e.status_code ≠ 500)
        ∨ (e.status_code = 500
            ∧ e.message = chars "Internal server error: " ++ e.original_error)))
    ∧ (∀ p html u us, env.pw = .error p → env.fetchHtml = .ok html →
        extract_video_src_from_html html url = u :: us →
        transcribe_video env url
          = .success ⟨url, ((titleOf html).map trimStr).getD (chars "Unknown"), u, true⟩) := by
  refine ⟨?_, ?_, ?_⟩
  · intro r h
    unfold transcribe_video
    rw [h]
  · intro e h
    refine ⟨by unfold transcribe_video; rw [h], ?_⟩
    obtain ⟨m, rfl⟩ := extract_error_classified env url e h
    rcases classify_canonical m with ⟨hm, hs⟩ | heq
    · exact Or.inl ⟨hm, hs⟩
    · right
      rw [heq]
      exact ⟨rfl, rfl⟩
  · intro p html u us hp hf hs
    rcases env with ⟨pw, fh, ydl⟩
    simp only at hp hf
    subst hp; subst hf
    simp [transcribe_video, extract_video_url, hs]

/-- Claim C8 witness: a raw-fetch success with a title, run through the
theorem. -/
theorem claim_C8_witness :
    transcribe_video
      ⟨.error (chars "boom"),
        .ok (chars "<title> T </title><video src=\"https://v.test/a.mp4\">"),
        .error (chars "x")⟩ (chars "https://x.test/p")
      = .success ⟨chars "https://x.test/p",
          ((titleOf (chars "<title> T </title><video src=\"https://v.test/a.mp4\">")).map
            trimStr).getD (chars "Unknown"),
          chars "https://v.test/a.mp4", true⟩ :=
  (claim_C8 ⟨.error (chars "boom"),
      .ok (chars "<title> T </title><video src=\"https://v.test/a.mp4\">"),
      .error (chars "x")⟩ (chars "https://x.test/p")).2.2
    (chars "boom") (chars "<title> T </title><video src=\"https://v.test/a.mp4\">")
    (chars "https://v.test/a.mp4") [] rfl rfl (by decide)

/-- Claim C9 counterexample: over the absolute https base, a video-tag
`src` carrying an `ftp:` URL passes through resolution unchanged, so the
scanner's output contains an element that begins with neither "http://"
nor "https://". -/
theorem claim_C9_counterexample :
    extract_video_src_from_html (chars "<video src=\"ftp://evil/v.mp4\">")
      (chars "https://x.test/p") = [chars "ftp://evil/v.mp4"]
    ∧ isPrefixOfB (chars "https://") (chars "https://x.test/p") = true
    ∧ isPrefixOfB (chars "http://") (chars "ftp://evil/v.mp4") = false
    ∧ isPrefixOfB (chars "https://") (chars "ftp://evil/v.mp4") = false := by
  decide

/-- Claim C9 (amended): over an absolute http(s) base URL, every element
of the scanner's output either begins with "http://" or "https://" or is
a raw match that itself carries a URI scheme and passed through standard
resolution unchanged; and the output contains no two equal elements. -/
theorem claim_C9 (html base : Str)
    (hb : isPrefixOfB (chars "http://") base = true
      ∨ isPrefixOfB (chars "https://") base = true) :
    (∀ u ∈ extract_video_src_from_html html base,
      isPrefixOfB (chars "http://") u = true ∨ isPrefixOfB (chars "https://") u = true
        ∨ (u ∈ rawMatches html ∧ parseScheme u ≠ none))
    ∧ (extract_video_src_from_html html base).Nodup := by
  constructor
  · intro u hu
    rw [extract_eq_dedupSpec] at hu
    have hu' := (mem_dedupSpec _ _).mp hu
    obtain ⟨m, hm, rfl⟩ := List.mem_map.mp hu'
    rcases resolveUrl_shape base m hb with h | h | ⟨he, hp⟩
    · exact Or.inl h
    · exact Or.inr (Or.inl h)
    · exact Or.inr (Or.inr ⟨by rw [he]; exact hm, by rw [he]; exact hp⟩)
  · rw [extract_eq_dedupSpec]
    exact nodup_dedupSpec _

/-- Claim C9 witness: the theorem applied to a concrete page and base. -/
theorem claim_C9_witness :
    (extract_video_src_from_html (chars "<video src=\"/v.mp4\">")
      (chars "https://x.test/p")).Nodup :=
  (claim_C9 (chars "<video src=\"/v.mp4\">") (chars "https://x.test/p")
    (Or.inr (by decide))).2

end Forkcast
